import Mathlib

/-!
# Verification of the blackd-client core (`src/main.rs`)

A shallow embedding of the per-file request/response protocol and atomic
update logic of the `blackd-client` command-line tool, together with
theorems settling the specification claims about it.

Modelling conventions:

* File contents and HTTP bodies are byte sequences (`List Nat`).
* The on-disk state is an association list from path strings to contents
  (`FS`); earlier entries shadow later ones.
* Fallible I/O steps (temp-file creation, writing, renaming, reading,
  sending) are driven by explicit boolean oracles recorded in context
  structures, so every possible interleaving of failures is quantified over.
* `Result` mirrors Rust's `Result<T, BlackError>`; `BlackError` carries the
  human-readable message exactly as in the source, except that messages the
  source produces by `Debug`-formatting a foreign error value are abstracted
  to fixed marker strings (their exact text never matters to a claim).
-/

set_option autoImplicit false

/-- Byte sequences: contents of files and HTTP bodies. -/
abbrev Bytes := List Nat

/-- The file system: an association list from paths to byte contents.
The first binding for a path wins. -/
abbrev FS := List (String × Bytes)

/-- Look up the contents of a path. -/
def fsLookup : FS → String → Option Bytes
  | [], _ => none
  | kv :: rest, p => if kv.1 = p then some kv.2 else fsLookup rest p

/-- Create or replace a file: the new binding shadows any older one. -/
def fsInsert (fs : FS) (p : String) (v : Bytes) : FS :=
  (p, v) :: fs

/-- Delete a file (all bindings of the path). -/
def fsErase (fs : FS) (p : String) : FS :=
  fs.filter (fun kv => !(kv.1 = p : Bool))

theorem fsLookup_insert_self (fs : FS) (p : String) (v : Bytes) :
    fsLookup (fsInsert fs p v) p = some v := by
  simp [fsInsert, fsLookup]

theorem fsLookup_insert_ne (fs : FS) (p q : String) (v : Bytes) (h : p ≠ q) :
    fsLookup (fsInsert fs p v) q = fsLookup fs q := by
  simp [fsInsert, fsLookup, h]

theorem fsErase_cons_hit (kv : String × Bytes) (rest : FS) (p : String) (hk : kv.1 = p) :
    fsErase (kv :: rest) p = fsErase rest p := by
  simp [fsErase, List.filter_cons, hk]

theorem fsErase_cons_miss (kv : String × Bytes) (rest : FS) (p : String) (hk : ¬ kv.1 = p) :
    fsErase (kv :: rest) p = kv :: fsErase rest p := by
  simp [fsErase, List.filter_cons, hk]

theorem fsLookup_erase_self (fs : FS) (p : String) :
    fsLookup (fsErase fs p) p = none := by
  induction fs with
  | nil => rfl
  | cons kv rest ih =>
    by_cases hk : kv.1 = p
    · rw [fsErase_cons_hit kv rest p hk]; exact ih
    · rw [fsErase_cons_miss kv rest p hk]
      simp [fsLookup, hk, ih]

theorem fsLookup_erase_ne (fs : FS) (p q : String) (h : p ≠ q) :
    fsLookup (fsErase fs p) q = fsLookup fs q := by
  induction fs with
  | nil => rfl
  | cons kv rest ih =>
    by_cases hk : kv.1 = p
    · have hq : ¬ kv.1 = q := fun hh => h (hk.symm.trans hh)
      rw [fsErase_cons_hit kv rest p hk, ih]
      simp [fsLookup, hq]
    · rw [fsErase_cons_miss kv rest p hk]
      by_cases hq : kv.1 = q
      · simp [fsLookup, hq]
      · simp [fsLookup, hq, ih]

/-- The error container of the client (`struct BlackError`): every failure is
collapsed into one human-readable message. -/
structure BlackError where
  what_happened : String
  deriving DecidableEq

/-- Rust's `Result<α, BlackError>` as used by the client. -/
inductive RResult (α : Type) where
  | ok (val : α)
  | err (e : BlackError)
  deriving DecidableEq

/-- Marker message: the `Debug` rendering of the `std::io::Error` produced
when `NamedTempFile::new()` fails (exact text abstracted). -/
def tempCreateErrorMsg : String := "io error: could not create temporary file"

/-- Marker message: the `Display` rendering of the `PersistError` produced
when `NamedTempFile::persist` (the rename) fails (exact text abstracted). -/
def persistErrorMsg : String := "persist error: rename failed"

/-- Oracle for one invocation of the atomic writer: where the OS places the
temporary file (`tmpDir` is the system temporary directory used by
`NamedTempFile::new()`, `tmpName` the fresh random file name) and which of
the three fallible steps succeed. -/
structure WriteCtx where
  tmpDir : String
  tmpName : String
  createOk : Bool
  writeOk : Bool
  persistOk : Bool

/-- Full path of the temporary file an invocation of the writer would use. -/
def WriteCtx.tmpPathOf (ctx : WriteCtx) : String :=
  ctx.tmpDir ++ "/" ++ ctx.tmpName

/-- Result of one invocation of the atomic writer: the returned
`Result<bool, BlackError>`, the resulting file system, and the path of the
temporary file that was created (`none` if creation itself failed). -/
structure WriteOut where
  result : RResult Bool
  fs : FS
  tmpPath : Option String

/-- `fn write_pyfile(filepath: &Path, data: Vec<u8>) -> Result<bool, BlackError>`.

Embeds `src/main.rs` lines 267–285:
1. `NamedTempFile::new()?` creates a fresh empty file in the **system**
   temporary directory (that is what `NamedTempFile::new` does; it does not
   look at `filepath`); on failure the `?` propagates an error.
2. `temp.write_all(&data)` dumps the bytes into the temporary file; on
   failure the function returns the fixed error message and the temporary
   file is deleted when `temp` is dropped.
3. `temp.persist(filepath)` atomically renames the temporary file onto the
   target; on success the function returns `Ok(true)`, on failure the
   error's rendering is returned and the temporary file is cleaned up.
No branch ever returns `Ok(false)`. -/
def write_pyfile (ctx : WriteCtx) (fs : FS) (filepath : String) (data : Bytes) : WriteOut :=
  if ctx.createOk = false then
    { result := .err ⟨tempCreateErrorMsg⟩, fs := fs, tmpPath := none }
  else
    let tmpPath := ctx.tmpPathOf
    let fs1 := fsInsert fs tmpPath []
    if ctx.writeOk = false then
      { result := .err ⟨"Could not persist reformatted code to disk!"⟩,
        fs := fsErase fs1 tmpPath, tmpPath := some tmpPath }
    else
      let fs2 := fsInsert fs1 tmpPath data
      if ctx.persistOk = false then
        { result := .err ⟨persistErrorMsg⟩,
          fs := fsErase fs2 tmpPath, tmpPath := some tmpPath }
      else
        { result := .ok true,
          fs := fsInsert (fsErase fs2 tmpPath) filepath data,
          tmpPath := some tmpPath }

/-- Directory component of a path: everything before the last `/`
(empty if the path has no `/`). -/
def parentDir (s : String) : String :=
  String.mk (((s.data.reverse.dropWhile (fun c => !(c = '/' : Bool))).drop 1).reverse)

theorem dropWhile_ne_slash (A B : List Char) (hA : '/' ∉ A) :
    (A ++ '/' :: B).dropWhile (fun c => !(c = '/' : Bool)) = '/' :: B := by
  induction A with
  | nil => simp [List.dropWhile]
  | cons a A ih =>
    have ha : ¬ a = '/' := fun hh => hA (hh ▸ List.mem_cons_self a A)
    have hA' : '/' ∉ A := fun hm => hA (List.mem_cons_of_mem _ hm)
    simp only [List.cons_append, List.dropWhile_cons]
    simp [ha, ih hA']

theorem parentDir_concat (d name : String) (h : '/' ∉ name.data) :
    parentDir (d ++ "/" ++ name) = d := by
  unfold parentDir
  have hdata : (d ++ "/" ++ name).data = d.data ++ '/' :: name.data := by
    simp [String.data_append]
  rw [hdata, List.reverse_append, List.reverse_cons, List.append_assoc,
    List.singleton_append]
  have hmem : '/' ∉ name.data.reverse := by
    intro hm; exact h (List.mem_reverse.mp hm)
  rw [dropWhile_ne_slash name.data.reverse (d.data.reverse) hmem]
  simp

/-- The writer's `Result` is always `Ok(true)` or an error: no branch of
`write_pyfile` produces `Ok(false)`. -/
theorem write_pyfile_result_cases (ctx : WriteCtx) (fs : FS) (filepath : String) (data : Bytes) :
    (write_pyfile ctx fs filepath data).result = .ok true ∨
      ∃ e, (write_pyfile ctx fs filepath data).result = .err e := by
  by_cases hc : ctx.createOk = false
  · exact Or.inr ⟨⟨tempCreateErrorMsg⟩, by simp [write_pyfile, hc]⟩
  · by_cases hw : ctx.writeOk = false
    · exact Or.inr ⟨⟨"Could not persist reformatted code to disk!"⟩,
        by simp [write_pyfile, hc, hw]⟩
    · by_cases hp : ctx.persistOk = false
      · exact Or.inr ⟨⟨persistErrorMsg⟩, by simp [write_pyfile, hc, hw, hp]⟩
      · exact Or.inl (by simp [write_pyfile, hc, hw, hp])

/-- C1 (counterexample): the claim says the temporary file is created in the
same directory as the target path. In the code `NamedTempFile::new()` places
it in the system temporary directory, which at this concrete input
(`/tmp` as temp dir, target `/home/user/a.py`) is a different directory. -/
theorem write_pyfile_temp_dir_counterexample :
    (write_pyfile ⟨"/tmp", "tmpXq3v", true, true, true⟩
        [("/home/user/a.py", [120])] "/home/user/a.py" [121]).tmpPath =
      some "/tmp/tmpXq3v" ∧
    parentDir "/tmp/tmpXq3v" ≠ parentDir "/home/user/a.py" := by
  exact ⟨rfl, by decide⟩

/-- C1 (amended): the atomic file writer creates its temporary file in the
**system temporary directory** (not necessarily the target's directory or
filesystem), and if any step before the final rename fails, the target
file's contents are byte-identical to its pre-operation contents, the
temporary file is discarded, and the operation reports failure. -/
theorem write_pyfile_prefail_preserves_target
    (ctx : WriteCtx) (fs : FS) (filepath : String) (data : Bytes)
    (hne : ctx.tmpPathOf ≠ filepath)
    (hname : '/' ∉ ctx.tmpName.data)
    (hfail : ctx.createOk = false ∨ ctx.writeOk = false) :
    (∃ e, (write_pyfile ctx fs filepath data).result = .err e) ∧
    fsLookup (write_pyfile ctx fs filepath data).fs filepath = fsLookup fs filepath ∧
    (∀ p, (write_pyfile ctx fs filepath data).tmpPath = some p →
      fsLookup (write_pyfile ctx fs filepath data).fs p = none ∧
      parentDir p = ctx.tmpDir) := by
  by_cases hc : ctx.createOk = false
  · refine ⟨⟨⟨tempCreateErrorMsg⟩, ?_⟩, ?_, ?_⟩ <;>
      simp [write_pyfile, hc]
  · have hw : ctx.writeOk = false := by
      rcases hfail with h | h
      · exact absurd h hc
      · exact h
    refine ⟨⟨⟨"Could not persist reformatted code to disk!"⟩, ?_⟩, ?_, ?_⟩
    · simp [write_pyfile, hc, hw]
    · rw [show (write_pyfile ctx fs filepath data).fs =
          fsErase (fsInsert fs ctx.tmpPathOf []) ctx.tmpPathOf from by
        simp [write_pyfile, hc, hw]]
      rw [fsLookup_erase_ne _ _ _ hne, fsLookup_insert_ne _ _ _ _ hne]
    · intro p hp
      have hp' : p = ctx.tmpPathOf := by
        have : (write_pyfile ctx fs filepath data).tmpPath = some ctx.tmpPathOf := by
          simp [write_pyfile, hc, hw]
        rw [this] at hp
        exact (Option.some.inj hp).symm
      subst hp'
      constructor
      · rw [show (write_pyfile ctx fs filepath data).fs =
            fsErase (fsInsert fs ctx.tmpPathOf []) ctx.tmpPathOf from by
          simp [write_pyfile, hc, hw]]
        exact fsLookup_erase_self _ _
      · exact parentDir_concat ctx.tmpDir ctx.tmpName hname

/-- Witness for `write_pyfile_prefail_preserves_target` at a concrete input:
a write failure with target `/w/a.py`, temp file `/tmp/t0`. -/
theorem write_pyfile_prefail_preserves_target_witness :
    (∃ e, (write_pyfile ⟨"/tmp", "t0", true, false, true⟩
        [("/w/a.py", [7])] "/w/a.py" [8]).result = .err e) ∧
    fsLookup (write_pyfile ⟨"/tmp", "t0", true, false, true⟩
        [("/w/a.py", [7])] "/w/a.py" [8]).fs "/w/a.py" =
      fsLookup [("/w/a.py", [7])] "/w/a.py" ∧
    (∀ p, (write_pyfile ⟨"/tmp", "t0", true, false, true⟩
        [("/w/a.py", [7])] "/w/a.py" [8]).tmpPath = some p →
      fsLookup (write_pyfile ⟨"/tmp", "t0", true, false, true⟩
        [("/w/a.py", [7])] "/w/a.py" [8]).fs p = none ∧
      parentDir p = "/tmp") :=
  write_pyfile_prefail_preserves_target ⟨"/tmp", "t0", true, false, true⟩
    [("/w/a.py", [7])] "/w/a.py" [8] (by decide) (by decide) (Or.inr rfl)

/-- C2 (confirmed): whenever the atomic writer reports success, the target
file's contents are byte-identical to the supplied bytes, whatever the
original contents were. -/
theorem write_pyfile_success_replaces_contents
    (ctx : WriteCtx) (fs : FS) (filepath : String) (data : Bytes)
    (hok : (write_pyfile ctx fs filepath data).result = .ok true) :
    fsLookup (write_pyfile ctx fs filepath data).fs filepath = some data := by
  by_cases hc : ctx.createOk = false
  · simp [write_pyfile, hc] at hok
  · by_cases hw : ctx.writeOk = false
    · simp [write_pyfile, hc, hw] at hok
    · by_cases hp : ctx.persistOk = false
      · simp [write_pyfile, hc, hw, hp] at hok
      · rw [show (write_pyfile ctx fs filepath data).fs =
            fsInsert (fsErase (fsInsert (fsInsert fs ctx.tmpPathOf []) ctx.tmpPathOf data)
              ctx.tmpPathOf) filepath data from by
          simp [write_pyfile, hc, hw, hp]]
        exact fsLookup_insert_self _ _ _

/-- Witness for `write_pyfile_success_replaces_contents`: a successful write
of bytes `[3]` over a file that previously held `[1, 2]`. -/
theorem write_pyfile_success_replaces_contents_witness :
    fsLookup (write_pyfile ⟨"/tmp", "t0", true, true, true⟩
        [("a.py", [1, 2])] "a.py" [3]).fs "a.py" = some [3] :=
  write_pyfile_success_replaces_contents ⟨"/tmp", "t0", true, true, true⟩
    [("a.py", [1, 2])] "a.py" [3] rfl

/-- `str::split(',')` at the character level: splits on every comma, keeping
empty pieces (so the empty string yields one empty piece, as in Rust). -/
def splitCommaChars : List Char → List (List Char)
  | [] => [[]]
  | c :: rest =>
    if c = ',' then [] :: splitCommaChars rest
    else
      match splitCommaChars rest with
      | [] => [[c]]
      | t :: ts => (c :: t) :: ts

/-- `Vec::join(",")` at the character level. -/
def joinCommaChars : List (List Char) → List Char
  | [] => []
  | [t] => t
  | t :: ts => t ++ ',' :: joinCommaChars ts

/-- `char::is_numeric` as applied by `parse_py_versions`, modelled on its
ASCII restriction only. Rust's `char::is_numeric` is true for every Unicode
numeric character (general categories Nd, Nl, No, e.g. `'²'`), a table this
embedding does not reproduce; on ASCII characters the two coincide exactly
(the only ASCII numerics are the digits `0`–`9`). Accordingly, every theorem
that quantifies over inputs flowing through this predicate restricts the
input characters to ASCII, where the model is exact; inputs containing
non-ASCII characters are outside the scope of the embedding. -/
def rust_is_numeric (c : Char) : Bool := c.isDigit

/-- The `supported_versions` vector of `parse_py_versions`
(`[PY27, PY33, PY34, PY35, PY36, PY37, PY38, PY39, PYI]`, i.e.
`["27","33","34","35","36","37","38","39","PYI"]`). -/
def supported_versions : List (List Char) :=
  [['2', '7'], ['3', '3'], ['3', '4'], ['3', '5'], ['3', '6'], ['3', '7'],
   ['3', '8'], ['3', '9'], ['P', 'Y', 'I']]

/-- The eight all-digit entries of `supported_versions` (every entry except
`"PYI"`). -/
def numeric_supported : List (List Char) :=
  [['2', '7'], ['3', '3'], ['3', '4'], ['3', '5'], ['3', '6'], ['3', '7'],
   ['3', '8'], ['3', '9']]

/-- `fn parse_py_versions(version_string: &str) -> Result<String, String>`
(`src/main.rs` lines 185–199), at the character level: split on commas, drop
empty pieces, strip each piece to its numeric characters, keep the residues
that occur in `supported_versions`, put `"py"` in front of each, and
comma-join. The Rust function always returns `Ok`, so the model returns the
string directly. -/
def parse_py_versions_core (cs : List Char) : List Char :=
  joinCommaChars
    (((((splitCommaChars cs).filter (fun entry => decide (0 < entry.length))).map
        (fun item => item.filter rust_is_numeric)).filter
        (fun entry => decide (entry ∈ supported_versions))).map
      (fun val => 'p' :: 'y' :: val))

/-- String-level wrapper of `parse_py_versions_core`. -/
def parse_py_versions (version_string : String) : String :=
  String.mk (parse_py_versions_core version_string.data)

/-- Modelled from the spec claim, for comparison with the code: "the
translated variant value contains exactly the valid tags, each normalized
with a fixed `py` prefix, in their original relative order, comma-joined;
invalid tokens are silently dropped". -/
def parse_py_versions_claimed (version_string : String) : String :=
  String.mk (joinCommaChars
    (((splitCommaChars version_string.data).filter
        (fun entry => decide (entry ∈ supported_versions))).map
      (fun val => 'p' :: 'y' :: val)))

theorem splitCommaChars_no_comma (t : List Char) (h : ',' ∉ t) :
    splitCommaChars t = [t] := by
  induction t with
  | nil => rfl
  | cons c rest ih =>
    have hc : ¬ c = ',' := fun hh => h (hh ▸ List.mem_cons_self c rest)
    have h' : ',' ∉ rest := fun hm => h (List.mem_cons_of_mem _ hm)
    simp [splitCommaChars, hc, ih h']

theorem splitCommaChars_append (t : List Char) (cs : List Char) (h : ',' ∉ t) :
    splitCommaChars (t ++ ',' :: cs) = t :: splitCommaChars cs := by
  induction t with
  | nil => simp [splitCommaChars]
  | cons c rest ih =>
    have hc : ¬ c = ',' := fun hh => h (hh ▸ List.mem_cons_self c rest)
    have h' : ',' ∉ rest := fun hm => h (List.mem_cons_of_mem _ hm)
    simp [splitCommaChars, hc, ih h']

theorem split_join (tokens : List (List Char)) (hne : tokens ≠ [])
    (hnc : ∀ t ∈ tokens, ',' ∉ t) :
    splitCommaChars (joinCommaChars tokens) = tokens := by
  induction tokens with
  | nil => exact absurd rfl hne
  | cons t ts ih =>
    cases ts with
    | nil =>
      rw [show joinCommaChars [t] = t from rfl]
      exact splitCommaChars_no_comma t (hnc t (List.mem_cons_self t []))
    | cons t' ts' =>
      rw [show joinCommaChars (t :: t' :: ts') = t ++ ',' :: joinCommaChars (t' :: ts')
        from rfl]
      rw [splitCommaChars_append t _ (hnc t (List.mem_cons_self _ _))]
      rw [ih (by simp) (fun u hu => hnc u (List.mem_cons_of_mem _ hu))]

theorem mem_supported_iff_of_digits (e : List Char) (hd : ∀ c ∈ e, rust_is_numeric c) :
    (e ∈ supported_versions) ↔ (e ∈ numeric_supported) := by
  constructor
  · intro h
    have hsplit : supported_versions = numeric_supported ++ [['P', 'Y', 'I']] := rfl
    rw [hsplit, List.mem_append] at h
    rcases h with h | h
    · exact h
    · exfalso
      have he : e = ['P', 'Y', 'I'] := by simpa using h
      have := hd 'P' (by rw [he]; exact List.mem_cons_self _ _)
      exact absurd this (by decide)
  · intro h
    have hsplit : supported_versions = numeric_supported ++ [['P', 'Y', 'I']] := rfl
    rw [hsplit, List.mem_append]
    exact Or.inl h

/-- C3 (counterexample): on the input `"3.7,PYI"` the claim predicts the
variant value `"pyPYI"` (`"PYI"` is the only token in the enumerated set,
`"3.7"` is an invalid token and should be dropped), but the code produces
`"py37"`: the numeric filter strips `"3.7"` to `"37"` (kept) and strips
`"PYI"` to the empty residue (dropped). -/
theorem parse_py_versions_counterexample :
    parse_py_versions "3.7,PYI" = "py37" ∧
    parse_py_versions_claimed "3.7,PYI" = "pyPYI" ∧
    parse_py_versions "3.7,PYI" ≠ parse_py_versions_claimed "3.7,PYI" := by
  refine ⟨by decide, by decide, by decide⟩

/-- C3 (amended): for every comma-joined list of tokens of ASCII characters
(the alphabet on which the model's `rust_is_numeric` coincides with Rust's
`char::is_numeric`), the translated variant value contains exactly the
nonempty tokens whose residue of numeric characters is one of `"27"`,
`"33"`, `"34"`, `"35"`, `"36"`, `"37"`, `"38"`, `"39"`, each emitted as
`"py"` followed by that residue, in their original relative order,
comma-joined; all other tokens — including `"PYI"`, whose numeric residue is
empty — are silently dropped, and no input ever raises an error. -/
theorem parse_py_versions_characterization
    (tokens : List (List Char)) (hne : tokens ≠ [])
    (hnc : ∀ t ∈ tokens, ',' ∉ t)
    (_hascii : ∀ t ∈ tokens, ∀ c ∈ t, c.toNat < 128) :
    parse_py_versions (String.mk (joinCommaChars tokens)) =
      String.mk (joinCommaChars
        ((((tokens.filter (fun entry => decide (0 < entry.length))).map
            (fun item => item.filter rust_is_numeric)).filter
            (fun entry => decide (entry ∈ numeric_supported))).map
          (fun val => 'p' :: 'y' :: val))) := by
  unfold parse_py_versions parse_py_versions_core
  rw [show (String.mk (joinCommaChars tokens)).data = joinCommaChars tokens from rfl]
  rw [split_join tokens hne hnc]
  refine congrArg _ (congrArg _ (congrArg _ ?_))
  apply List.filter_congr
  intro e he
  rcases List.mem_map.mp he with ⟨item, _, hitem⟩
  have hd : ∀ c ∈ e, rust_is_numeric c := by
    intro c hc
    rw [← hitem] at hc
    exact List.of_mem_filter hc
  show decide (e ∈ supported_versions) = decide (e ∈ numeric_supported)
  rw [decide_eq_decide]
  exact mem_supported_iff_of_digits e hd

/-- Witness for `parse_py_versions_characterization` on the token list
`["36", "abc", "PYI", "99"]`. -/
theorem parse_py_versions_characterization_witness :
    parse_py_versions (String.mk (joinCommaChars
        [['3', '6'], ['a', 'b', 'c'], ['P', 'Y', 'I'], ['9', '9']])) =
      String.mk (joinCommaChars
        (((([['3', '6'], ['a', 'b', 'c'], ['P', 'Y', 'I'], ['9', '9']].filter
            (fun entry => decide (0 < entry.length))).map
            (fun item => item.filter rust_is_numeric)).filter
            (fun entry => decide (entry ∈ numeric_supported))).map
          (fun val => 'p' :: 'y' :: val))) :=
  parse_py_versions_characterization
    [['3', '6'], ['a', 'b', 'c'], ['P', 'Y', 'I'], ['9', '9']]
    (by decide) (by decide) (by decide)

/-- Validity of one character of a header value, as checked by
`HeaderValue::from_str`: horizontal tab, or any character that is not a
control character and not DEL (bytes ≥ 0x80 of a UTF-8 encoding are obs-text
and always acceptable, so the check is equivalent at the character level). -/
def headerCharOk (c : Char) : Bool :=
  (c.toNat = 9 : Bool) || ((32 ≤ c.toNat : Bool) && !(c.toNat = 127 : Bool))

/-- Validity of a whole header value string. -/
def headerValueValid (s : String) : Bool :=
  s.data.all headerCharOk

/-- `HeaderValue::from_str(s)`: `some` exactly when every character is
acceptable. The source calls `.unwrap()` on the result; a `none` here marks
the panic that `unwrap` would raise. -/
def mkHeaderValue (s : String) : Option String :=
  if headerValueValid s then some s else none

/-- A `HeaderMap`: association list from header names to values. -/
abbrev Headers := List (String × String)

/-- `HeaderMap::insert`: any previous binding of the name is replaced. -/
def hmInsert (hm : Headers) (k v : String) : Headers :=
  hm.filter (fun p => !(p.1 = k : Bool)) ++ [(k, v)]

/-- Header lookup by name. -/
def hmGet : Headers → String → Option String
  | [], _ => none
  | kv :: rest, k => if kv.1 = k then some kv.2 else hmGet rest k

/-- The launch options of the client (`struct CliOptions`); `target_version`
holds the string already produced by `parse_py_versions` (that is the
`from_str_fn` used by the argument parser). -/
structure CliOptions where
  host : String
  port : Nat
  line_length : Nat
  target_version : String
  skip_string_normalization : Bool
  skip_magic_trailing_comma : Bool
  fast : Bool
  safe : Bool
  diff : Bool
  src : List String

/-- `fn headers_from_cli_options(options: &CliOptions) -> HeaderMap`
(`src/main.rs` lines 201–251). Each `HeaderValue::from_str(..).unwrap()` is
modelled by a bind through `mkHeaderValue`; a `none` result marks the panic
the `unwrap` would raise (it never does for the values this program builds,
see `headers_from_cli_options_pure`). -/
def headers_from_cli_options (options : CliOptions) : Option Headers := do
  let line_length := Nat.repr options.line_length
  let headers0 : Headers := []
  let v1 ← mkHeaderValue "1"
  let headers1 := hmInsert headers0 "X-Protocol-Version" v1
  let v2 ← mkHeaderValue line_length
  let headers2 := hmInsert headers1 "X-Line-Length" v2
  let headers3 ←
    if options.skip_string_normalization then do
      let v ← mkHeaderValue "true"
      pure (hmInsert headers2 "X-Skip-String-Normalization" v)
    else pure headers2
  let headers4 ←
    if options.skip_magic_trailing_comma then do
      let v ← mkHeaderValue "true"
      pure (hmInsert headers3 "X-Skip-Magic-Trailing-Comma" v)
    else pure headers3
  let headers5 ←
    if options.fast && !options.safe then do
      let v ← mkHeaderValue "fast"
      pure (hmInsert headers4 "X-Fast-Or-Safe" v)
    else do
      let v ← mkHeaderValue "safe"
      pure (hmInsert headers4 "X-Fast-Or-Safe" v)
  let headers6 ←
    if !options.target_version.isEmpty then do
      let v ← mkHeaderValue options.target_version
      pure (hmInsert headers5 "X-Python-Variant" v)
    else pure headers5
  let headers7 ←
    if options.diff then do
      let v ← mkHeaderValue "true"
      pure (hmInsert headers6 "X-Diff" v)
    else pure headers6
  pure headers7

theorem mkHeaderValue_one : mkHeaderValue "1" = some "1" := by decide

theorem mkHeaderValue_true : mkHeaderValue "true" = some "true" := by decide

theorem mkHeaderValue_fast : mkHeaderValue "fast" = some "fast" := by decide

theorem mkHeaderValue_safe : mkHeaderValue "safe" = some "safe" := by decide

theorem digitChar_ok (m : Nat) : headerCharOk (Nat.digitChar m) = true := by
  match m with
  | 0 => decide
  | 1 => decide
  | 2 => decide
  | 3 => decide
  | 4 => decide
  | 5 => decide
  | 6 => decide
  | 7 => decide
  | 8 => decide
  | 9 => decide
  | 10 => decide
  | 11 => decide
  | 12 => decide
  | 13 => decide
  | 14 => decide
  | 15 => decide
  | (n + 16) =>
    have hstar : Nat.digitChar (n + 16) = '*' := by
      unfold Nat.digitChar
      repeat rw [if_neg (by omega)]
    rw [hstar]; decide

theorem toDigitsCore_ok (b : Nat) (fuel : Nat) : ∀ (n : Nat) (ds : List Char),
    ds.all headerCharOk = true → (Nat.toDigitsCore b fuel n ds).all headerCharOk = true := by
  induction fuel with
  | zero => intro n ds hds; simpa [Nat.toDigitsCore] using hds
  | succ fuel ih =>
    intro n ds hds
    simp only [Nat.toDigitsCore]
    have hcons : (Nat.digitChar (n % b) :: ds).all headerCharOk = true := by
      simp [List.all_cons, digitChar_ok, hds]
    by_cases h : n / b = 0
    · simp only [h, if_true]
      exact hcons
    · simp only [h, if_false]
      exact ih _ _ hcons

theorem headerValueValid_repr (n : Nat) : headerValueValid (Nat.repr n) = true := by
  show (Nat.repr n).data.all headerCharOk = true
  have hdata : (Nat.repr n).data = Nat.toDigits 10 n := rfl
  rw [hdata]
  exact toDigitsCore_ok 10 (n + 1) n [] rfl

theorem mkHeaderValue_repr (n : Nat) :
    mkHeaderValue (Nat.repr n) = some (Nat.repr n) := by
  simp [mkHeaderValue, headerValueValid_repr]

theorem isDigit_headerCharOk (c : Char) (h : c.isDigit = true) :
    headerCharOk c = true := by
  simp only [Char.isDigit, Bool.and_eq_true, decide_eq_true_eq] at h
  have h48 : 48 ≤ c.toNat := h.1
  have h57 : c.toNat ≤ 57 := h.2
  have h32 : 32 ≤ c.toNat := le_trans (by norm_num) h48
  have h127 : ¬ c.toNat = 127 := by omega
  simp [headerCharOk, h32, h127]

theorem joinCommaChars_all (ts : List (List Char))
    (h : ∀ t ∈ ts, t.all headerCharOk = true) :
    (joinCommaChars ts).all headerCharOk = true := by
  induction ts with
  | nil => rfl
  | cons t ts ih =>
    cases ts with
    | nil =>
      rw [show joinCommaChars [t] = t from rfl]
      exact h t (List.mem_cons_self _ _)
    | cons t' ts' =>
      rw [show joinCommaChars (t :: t' :: ts') = t ++ ',' :: joinCommaChars (t' :: ts')
        from rfl]
      rw [List.all_append]
      have h1 := h t (List.mem_cons_self _ _)
      have h2 : (joinCommaChars (t' :: ts')).all headerCharOk = true :=
        ih (fun u hu => h u (List.mem_cons_of_mem _ hu))
      have hcomma : headerCharOk ',' = true := by decide
      simp [h1, h2, hcomma, List.all_cons]

theorem headerValueValid_parse (s : String) :
    headerValueValid (parse_py_versions s) = true := by
  show (parse_py_versions s).data.all headerCharOk = true
  have hdata : (parse_py_versions s).data = parse_py_versions_core s.data := rfl
  rw [hdata]
  unfold parse_py_versions_core
  apply joinCommaChars_all
  intro t ht
  rcases List.mem_map.mp ht with ⟨v, hv, rfl⟩
  rcases List.mem_filter.mp hv with ⟨hv', _⟩
  rcases List.mem_map.mp hv' with ⟨item, _, rfl⟩
  rw [List.all_eq_true]
  intro c hc
  rcases List.mem_cons.mp hc with rfl | hc'
  · decide
  · rcases List.mem_cons.mp hc' with rfl | hc''
    · decide
    · exact isDigit_headerCharOk c (List.of_mem_filter hc'')

theorem mkHeaderValue_parse (s : String) :
    mkHeaderValue (parse_py_versions s) = some (parse_py_versions s) := by
  simp [mkHeaderValue, headerValueValid_parse]

set_option maxHeartbeats 3200000 in
/-- C4 (confirmed): for every configuration whose translation succeeds, the
protocol metadata contains `X-Protocol-Version = "1"` and `X-Line-Length` =
the decimal string of the line length; `X-Skip-String-Normalization = "true"`
present iff the flag is set; `X-Skip-Magic-Trailing-Comma` present iff the
flag is set; `X-Fast-Or-Safe` always present, equal to `"fast"` iff `fast`
is set and `safe` was not explicitly requested, otherwise `"safe"`;
`X-Python-Variant` present iff the target-version string is non-empty;
`X-Diff = "true"` present iff `diff` is set. -/
theorem headers_from_cli_options_laws (opts : CliOptions) (h : Headers)
    (hh : headers_from_cli_options opts = some h) :
    hmGet h "X-Protocol-Version" = some "1" ∧
    hmGet h "X-Line-Length" = some (Nat.repr opts.line_length) ∧
    (hmGet h "X-Skip-String-Normalization" = some "true" ↔
      opts.skip_string_normalization = true) ∧
    ((hmGet h "X-Skip-Magic-Trailing-Comma").isSome = true ↔
      opts.skip_magic_trailing_comma = true) ∧
    hmGet h "X-Fast-Or-Safe" = some (if opts.fast && !opts.safe then "fast" else "safe") ∧
    ((hmGet h "X-Python-Variant").isSome = true ↔ ¬ opts.target_version = "") ∧
    (hmGet h "X-Diff" = some "true" ↔ opts.diff = true) := by
  obtain ⟨host, port, ll, tv, ssn, smtc, fa, sa, di, src⟩ := opts
  by_cases he : tv = ""
  · subst he
    cases ssn <;> cases smtc <;> cases fa <;> cases sa <;> cases di <;>
      (simp [headers_from_cli_options, mkHeaderValue_one, mkHeaderValue_true,
          mkHeaderValue_fast, mkHeaderValue_safe, mkHeaderValue_repr,
          show ("" : String).isEmpty = true from rfl] at hh;
        subst hh;
        simp [hmGet, hmInsert])
  · have hemp : tv.isEmpty = false := by
      rw [Bool.eq_false_iff]
      intro hh2
      exact he ((String.isEmpty_iff tv).mp hh2)
    by_cases hval : headerValueValid tv = true
    · have hmk : mkHeaderValue tv = some tv := by simp [mkHeaderValue, hval]
      cases ssn <;> cases smtc <;> cases fa <;> cases sa <;> cases di <;>
        (simp [headers_from_cli_options, mkHeaderValue_one, mkHeaderValue_true,
            mkHeaderValue_fast, mkHeaderValue_safe, mkHeaderValue_repr, hmk,
            hemp] at hh;
          subst hh;
          simp [hmGet, hmInsert, he])
    · have hmk : mkHeaderValue tv = none := by simp [mkHeaderValue, hval]
      cases ssn <;> cases smtc <;> cases fa <;> cases sa <;> cases di <;>
        simp [headers_from_cli_options, mkHeaderValue_one, mkHeaderValue_true,
          mkHeaderValue_fast, mkHeaderValue_safe, mkHeaderValue_repr, hmk,
          hemp] at hh

/-- Witness for `headers_from_cli_options_laws`: the configuration
`line_length = 88`, `target_version = "py36,py39"`,
`skip_string_normalization`, `diff`, safe mode. -/
theorem headers_from_cli_options_laws_witness :
    hmGet [("X-Protocol-Version", "1"), ("X-Line-Length", "88"),
        ("X-Skip-String-Normalization", "true"), ("X-Fast-Or-Safe", "safe"),
        ("X-Python-Variant", "py36,py39"), ("X-Diff", "true")]
      "X-Protocol-Version" = some "1" ∧
    hmGet [("X-Protocol-Version", "1"), ("X-Line-Length", "88"),
        ("X-Skip-String-Normalization", "true"), ("X-Fast-Or-Safe", "safe"),
        ("X-Python-Variant", "py36,py39"), ("X-Diff", "true")]
      "X-Line-Length" = some (Nat.repr 88) ∧
    (hmGet [("X-Protocol-Version", "1"), ("X-Line-Length", "88"),
        ("X-Skip-String-Normalization", "true"), ("X-Fast-Or-Safe", "safe"),
        ("X-Python-Variant", "py36,py39"), ("X-Diff", "true")]
      "X-Skip-String-Normalization" = some "true" ↔ true = true) ∧
    ((hmGet [("X-Protocol-Version", "1"), ("X-Line-Length", "88"),
        ("X-Skip-String-Normalization", "true"), ("X-Fast-Or-Safe", "safe"),
        ("X-Python-Variant", "py36,py39"), ("X-Diff", "true")]
      "X-Skip-Magic-Trailing-Comma").isSome = true ↔ false = true) ∧
    hmGet [("X-Protocol-Version", "1"), ("X-Line-Length", "88"),
        ("X-Skip-String-Normalization", "true"), ("X-Fast-Or-Safe", "safe"),
        ("X-Python-Variant", "py36,py39"), ("X-Diff", "true")]
      "X-Fast-Or-Safe" = some (if false && !false then "fast" else "safe") ∧
    ((hmGet [("X-Protocol-Version", "1"), ("X-Line-Length", "88"),
        ("X-Skip-String-Normalization", "true"), ("X-Fast-Or-Safe", "safe"),
        ("X-Python-Variant", "py36,py39"), ("X-Diff", "true")]
      "X-Python-Variant").isSome = true ↔ ¬ "py36,py39" = "") ∧
    (hmGet [("X-Protocol-Version", "1"), ("X-Line-Length", "88"),
        ("X-Skip-String-Normalization", "true"), ("X-Fast-Or-Safe", "safe"),
        ("X-Python-Variant", "py36,py39"), ("X-Diff", "true")]
      "X-Diff" = some "true" ↔ true = true) :=
  headers_from_cli_options_laws
    ⟨"localhost", 45484, 88, "py36,py39", true, false, false, false, true, ["a.py"]⟩
    [("X-Protocol-Version", "1"), ("X-Line-Length", "88"),
      ("X-Skip-String-Normalization", "true"), ("X-Fast-Or-Safe", "safe"),
      ("X-Python-Variant", "py36,py39"), ("X-Diff", "true")]
    (by decide)

set_option maxHeartbeats 3200000 in
theorem headers_from_cli_options_isSome (opts : CliOptions) (s : String)
    (htv : opts.target_version = parse_py_versions s) :
    (headers_from_cli_options opts).isSome = true := by
  obtain ⟨host, port, ll, tv, ssn, smtc, fa, sa, di, src⟩ := opts
  have htv' : tv = parse_py_versions s := htv
  subst htv'
  have hmk : mkHeaderValue (parse_py_versions s) = some (parse_py_versions s) :=
    mkHeaderValue_parse s
  by_cases hemp : (parse_py_versions s).isEmpty = true <;>
    cases ssn <;> cases smtc <;> cases fa <;> cases sa <;> cases di <;>
      simp [headers_from_cli_options, mkHeaderValue_one, mkHeaderValue_true,
        mkHeaderValue_fast, mkHeaderValue_safe, mkHeaderValue_repr, hmk, hemp]

/-- C9 (confirmed): the configuration-to-metadata translation is a pure
total function of the configuration — in particular it is deterministic
(equal configurations give identical metadata), and it never fails for any
configuration whose `target_version` was produced by `parse_py_versions`
(which is the only way the program ever builds one). -/
theorem headers_from_cli_options_pure (opts : CliOptions) (s : String)
    (htv : opts.target_version = parse_py_versions s) :
    (headers_from_cli_options opts).isSome = true ∧
    ∀ opts' : CliOptions, opts' = opts →
      headers_from_cli_options opts' = headers_from_cli_options opts := by
  constructor
  · exact headers_from_cli_options_isSome opts s htv
  · intro opts' hopts'
    rw [hopts']

/-- Witness for `headers_from_cli_options_pure` at the configuration with
`target_version = parse_py_versions "36"`. -/
theorem headers_from_cli_options_pure_witness :
    (headers_from_cli_options
      ⟨"localhost", 45484, 88, parse_py_versions "36", false, false, true, false, false,
        ["a.py"]⟩).isSome = true ∧
    ∀ opts' : CliOptions,
      opts' = ⟨"localhost", 45484, 88, parse_py_versions "36", false, false, true, false,
        false, ["a.py"]⟩ →
      headers_from_cli_options opts' =
        headers_from_cli_options
          ⟨"localhost", 45484, 88, parse_py_versions "36", false, false, true, false, false,
            ["a.py"]⟩ :=
  headers_from_cli_options_pure
    ⟨"localhost", 45484, 88, parse_py_versions "36", false, false, true, false, false,
      ["a.py"]⟩ "36" rfl

/-- A UTF-8 continuation byte (`0x80`–`0xBF`). -/
def utf8Cont (b : Nat) : Bool := (128 ≤ b : Bool) && (b < 192 : Bool)

/-- `String::from_utf8`: strict UTF-8 decoding of a byte sequence, `none` on
any malformed input (stray continuation bytes, truncated sequences, overlong
forms, surrogates, code points beyond `0x10FFFF`), as in Rust. -/
def utf8DecodeChars : List Nat → Option (List Char)
  | [] => some []
  | b :: bs =>
    if b < 128 then
      (utf8DecodeChars bs).map (fun cs => Char.ofNat b :: cs)
    else if b < 194 then none
    else if b < 224 then
      match bs with
      | b1 :: bs' =>
        if utf8Cont b1 then
          (utf8DecodeChars bs').map (fun cs => Char.ofNat ((b - 192) * 64 + (b1 - 128)) :: cs)
        else none
      | [] => none
    else if b < 240 then
      match bs with
      | b1 :: b2 :: bs' =>
        let cp := (b - 224) * 4096 + (b1 - 128) * 64 + (b2 - 128)
        if utf8Cont b1 && utf8Cont b2 && (2048 ≤ cp : Bool) &&
            !((55296 ≤ cp : Bool) && (cp ≤ 57343 : Bool)) then
          (utf8DecodeChars bs').map (fun cs => Char.ofNat cp :: cs)
        else none
      | _ => none
    else if b < 245 then
      match bs with
      | b1 :: b2 :: b3 :: bs' =>
        let cp := (b - 240) * 262144 + (b1 - 128) * 4096 + (b2 - 128) * 64 + (b3 - 128)
        if utf8Cont b1 && utf8Cont b2 && utf8Cont b3 && (65536 ≤ cp : Bool) &&
            (cp ≤ 1114111 : Bool) then
          (utf8DecodeChars bs').map (fun cs => Char.ofNat cp :: cs)
        else none
      | _ => none
    else none
  termination_by bs => bs.length
  decreasing_by all_goals simp_wf <;> omega

/-- The console lines `format_pyfile` can print for one file. -/
inductive Msg where
  | reformatted (path : String)
  | couldNotReformat (path : String)
  | alreadyFormatted (path : String)
  deriving DecidableEq

/-- `Debug` rendering of a `PathBuf`: the path wrapped in double quotes
(escapes for exotic characters are not reproduced). -/
def pathDebug (p : String) : String := "\"" ++ p ++ "\""

/-- `Display` rendering of a `reqwest::StatusCode`, abstracted to its decimal
code (the canonical reason phrase is presentation only). -/
def statusDisplay (status : Nat) : String := Nat.repr status

/-- Marker message: `Debug` rendering of the `FromUtf8Error` raised when a
Bad Request body is not valid UTF-8 (exact text abstracted). -/
def fromUtf8ErrorMsg : String := "invalid utf-8 in response body"

/-- Marker message: `Debug` rendering of the `std::io::Error` raised when
the source file cannot be opened or read (exact text abstracted). -/
def readErrorMsg : String := "io error: could not read source file"

/-- Marker message: `Debug` rendering of the `reqwest::Error` raised on a
transport-level failure of `send()` (exact text abstracted). -/
def transportErrorMsg : String := "reqwest error: transport failure"

/-- Oracle for one run of `format_pyfile` on one file: the result of
`PathBuf::canonicalize` (`none` models its failure, in which case the code
falls back to the original path), whether `read_pyfile` succeeds, the
daemon's answer (`none` models a transport error of `send()`, otherwise
status code and body bytes), and the oracle for the atomic writer. -/
structure FileCtx where
  canon : Option String
  readOk : Bool
  resp : Option (Nat × Bytes)
  wctx : WriteCtx

/-- Observable outcome of one run of `format_pyfile`: the returned
`Result<bool, BlackError>`, the resulting file system, how many HTTP
requests were sent, whether `write_pyfile` was invoked, and the lines
printed. -/
structure FileOut where
  result : RResult Bool
  fs : FS
  requests : Nat
  writeAttempted : Bool
  msgs : List Msg

/-- The response-interpretation `match` of `format_pyfile`
(`src/main.rs` lines 300–331): dispatch on the status code of an already
received response. One request was sent to obtain the response, so
`requests = 1` in every branch. -/
def interpret_response (status : Nat) (body : Bytes) (filepath : String)
    (wctx : WriteCtx) (fs : FS) : FileOut :=
  if status = 200 then
    let w := write_pyfile wctx fs filepath body
    match w.result with
    | .ok true => ⟨.ok true, w.fs, 1, true, [.reformatted filepath]⟩
    | .ok false => ⟨.ok false, w.fs, 1, true, [.couldNotReformat filepath]⟩
    | .err e => ⟨.err e, w.fs, 1, true, []⟩
  else if status = 204 then
    ⟨.ok false, fs, 1, false, [.alreadyFormatted filepath]⟩
  else if status = 400 then
    ⟨.err ⟨match utf8DecodeChars body with
           | some cs => String.mk cs
           | none => fromUtf8ErrorMsg⟩, fs, 1, false, []⟩
  else if status = 500 then
    ⟨.err ⟨pathDebug filepath ++ " caused an internal error in `blackd`"⟩, fs, 1, false, []⟩
  else
    ⟨.err ⟨"`blackd` returned an unrecognized status code: " ++ statusDisplay status⟩,
      fs, 1, false, []⟩

/-- `fn format_pyfile<T>(filepath: T, client: RequestBuilder) -> Result<bool, BlackError>`
(`src/main.rs` lines 287–331): canonicalize best-effort, skip silently if the
path does not exist, read the file (`?` propagates a read failure before any
request is sent), send the request (`?` propagates a transport failure), then
interpret the response. -/
def format_pyfile (ctx : FileCtx) (fs : FS) (path : String) : FileOut :=
  let filepath := ctx.canon.getD path
  match fsLookup fs filepath with
  | none => ⟨.ok false, fs, 0, false, []⟩
  | some _contents =>
    if ctx.readOk = false then ⟨.err ⟨readErrorMsg⟩, fs, 0, false, []⟩
    else
      match ctx.resp with
      | none => ⟨.err ⟨transportErrorMsg⟩, fs, 1, false, []⟩
      | some (status, body) => interpret_response status body filepath ctx.wctx fs

theorem write_pyfile_ne_ok_false (ctx : WriteCtx) (fs : FS) (filepath : String)
    (data : Bytes) : ¬ (write_pyfile ctx fs filepath data).result = .ok false := by
  intro h
  rcases write_pyfile_result_cases ctx fs filepath data with h1 | ⟨e, h1⟩ <;>
    rw [h1] at h <;> simp at h

theorem interpret_response_no_couldNot (status : Nat) (body : Bytes)
    (filepath p : String) (wctx : WriteCtx) (fs : FS) :
    Msg.couldNotReformat p ∉ (interpret_response status body filepath wctx fs).msgs := by
  intro hmem
  by_cases h200 : status = 200
  · subst h200
    rcases hw : (write_pyfile wctx fs filepath body).result with v | e
    · cases v
      · exact write_pyfile_ne_ok_false wctx fs filepath body hw
      · simp [interpret_response, hw] at hmem
    · simp [interpret_response, hw] at hmem
  · by_cases h204 : status = 204 <;> by_cases h400 : status = 400 <;>
      by_cases h500 : status = 500 <;>
      simp [interpret_response, h200, h204, h400, h500] at hmem

theorem format_pyfile_no_couldNot (ctx : FileCtx) (fs : FS) (path p : String) :
    Msg.couldNotReformat p ∉ (format_pyfile ctx fs path).msgs := by
  intro hmem
  simp only [format_pyfile] at hmem
  cases hlk : fsLookup fs (ctx.canon.getD path) with
  | none => rw [hlk] at hmem; simp at hmem
  | some c =>
    rw [hlk] at hmem
    by_cases hr : ctx.readOk = false
    · simp [hr] at hmem
    · cases hresp : ctx.resp with
      | none => rw [hresp] at hmem; simp [hr] at hmem
      | some sb =>
        obtain ⟨status, body⟩ := sb
        rw [hresp] at hmem
        simp only [hr, if_false] at hmem
        exact interpret_response_no_couldNot status body (ctx.canon.getD path) p
          ctx.wctx fs (by simpa using hmem)

/-- C5 (confirmed): the response interpreter produces exactly the outcome
mandated by the five status categories — `200 OK` invokes the atomic writer
on the response body and returns its result (success or propagated error);
`204 No Content` yields unchanged with no write; `400 Bad Request` yields a
failure carrying the response body decoded as text; `500 Internal Server
Error` yields a failure with the fixed message referencing the path; any
other status yields a failure naming the unrecognized status — and a write
is attempted only in the `200 OK` case. -/
theorem interpret_response_table (status : Nat) (body : Bytes) (filepath : String)
    (wctx : WriteCtx) (fs : FS) :
    (status = 200 →
      (interpret_response status body filepath wctx fs).writeAttempted = true ∧
      (interpret_response status body filepath wctx fs).result =
        (write_pyfile wctx fs filepath body).result ∧
      (interpret_response status body filepath wctx fs).fs =
        (write_pyfile wctx fs filepath body).fs) ∧
    (status = 204 →
      (interpret_response status body filepath wctx fs).result = .ok false ∧
      (interpret_response status body filepath wctx fs).fs = fs ∧
      (interpret_response status body filepath wctx fs).writeAttempted = false) ∧
    (status = 400 → ∀ cs, utf8DecodeChars body = some cs →
      (interpret_response status body filepath wctx fs).result = .err ⟨String.mk cs⟩ ∧
      (interpret_response status body filepath wctx fs).fs = fs ∧
      (interpret_response status body filepath wctx fs).writeAttempted = false) ∧
    (status = 500 →
      (interpret_response status body filepath wctx fs).result =
        .err ⟨pathDebug filepath ++ " caused an internal error in `blackd`"⟩ ∧
      (interpret_response status body filepath wctx fs).fs = fs ∧
      (interpret_response status body filepath wctx fs).writeAttempted = false) ∧
    (¬ status = 200 → ¬ status = 204 → ¬ status = 400 → ¬ status = 500 →
      (interpret_response status body filepath wctx fs).result =
        .err ⟨"`blackd` returned an unrecognized status code: " ++ statusDisplay status⟩ ∧
      (interpret_response status body filepath wctx fs).fs = fs ∧
      (interpret_response status body filepath wctx fs).writeAttempted = false) ∧
    ((interpret_response status body filepath wctx fs).writeAttempted = true →
      status = 200) := by
  refine ⟨?_, ?_, ?_, ?_, ?_, ?_⟩
  · intro h200; subst h200
    rcases hw : (write_pyfile wctx fs filepath body).result with v | e
    · cases v <;> simp [interpret_response, hw]
    · simp [interpret_response, hw]
  · intro h204; subst h204
    simp [interpret_response]
  · intro h400 cs hcs; subst h400
    simp [interpret_response, hcs]
  · intro h500; subst h500
    simp [interpret_response]
  · intro h200 h204 h400 h500
    simp [interpret_response, h200, h204, h400, h500]
  · intro hwa
    by_cases h200 : status = 200
    · exact h200
    · exfalso
      by_cases h204 : status = 204 <;> by_cases h400 : status = 400 <;>
        by_cases h500 : status = 500 <;>
        simp [interpret_response, h200, h204, h400, h500] at hwa

/-- Witness for `interpret_response_table`: a `204 No Content` response for
`a.py` leaves the file system untouched and reports unchanged, no write. -/
theorem interpret_response_table_witness :
    (interpret_response 204 [] "a.py" ⟨"/tmp", "t0", true, true, true⟩
      [("a.py", [120])]).result = .ok false ∧
    (interpret_response 204 [] "a.py" ⟨"/tmp", "t0", true, true, true⟩
      [("a.py", [120])]).fs = [("a.py", [120])] ∧
    (interpret_response 204 [] "a.py" ⟨"/tmp", "t0", true, true, true⟩
      [("a.py", [120])]).writeAttempted = false :=
  (interpret_response_table 204 [] "a.py" ⟨"/tmp", "t0", true, true, true⟩
    [("a.py", [120])]).2.1 rfl

/-- C6 (confirmed): if the (canonicalized) target path does not exist on
disk, `format_pyfile` immediately reports the unchanged outcome: no request
is issued, no write is attempted, the file system is untouched. -/
theorem format_pyfile_missing_skip (ctx : FileCtx) (fs : FS) (path : String)
    (hmiss : fsLookup fs (ctx.canon.getD path) = none) :
    (format_pyfile ctx fs path).result = .ok false ∧
    (format_pyfile ctx fs path).fs = fs ∧
    (format_pyfile ctx fs path).requests = 0 ∧
    (format_pyfile ctx fs path).writeAttempted = false := by
  simp [format_pyfile, hmiss]

/-- Witness for `format_pyfile_missing_skip`: an empty disk and the path
`missing.py`. -/
theorem format_pyfile_missing_skip_witness :
    (format_pyfile ⟨none, true, some (200, [120]), ⟨"/tmp", "t0", true, true, true⟩⟩
      [] "missing.py").result = .ok false ∧
    (format_pyfile ⟨none, true, some (200, [120]), ⟨"/tmp", "t0", true, true, true⟩⟩
      [] "missing.py").fs = [] ∧
    (format_pyfile ⟨none, true, some (200, [120]), ⟨"/tmp", "t0", true, true, true⟩⟩
      [] "missing.py").requests = 0 ∧
    (format_pyfile ⟨none, true, some (200, [120]), ⟨"/tmp", "t0", true, true, true⟩⟩
      [] "missing.py").writeAttempted = false :=
  format_pyfile_missing_skip
    ⟨none, true, some (200, [120]), ⟨"/tmp", "t0", true, true, true⟩⟩ [] "missing.py" rfl

/-- C10 (confirmed): the atomic writer never returns `Ok(false)`, so the
`format_pyfile` branch that would print `Could not reformat ...` for a
successful-but-false write result is unreachable on every input. -/
theorem write_pyfile_ok_false_unreachable :
    (∀ (ctx : WriteCtx) (fs : FS) (filepath : String) (data : Bytes),
      ¬ (write_pyfile ctx fs filepath data).result = .ok false) ∧
    (∀ (ctx : FileCtx) (fs : FS) (path p : String),
      Msg.couldNotReformat p ∉ (format_pyfile ctx fs path).msgs) :=
  ⟨write_pyfile_ne_ok_false, format_pyfile_no_couldNot⟩

/-- Aggregate outcome of the per-file loop of `main` over a list of source
files. -/
structure BatchOut where
  formatted : Nat
  skipped : Nat
  fs : FS
  requests : Nat
  outcomes : List (RResult Bool)
  printedErrors : List String

/-- The per-file loop of `main` (`src/main.rs` lines 49–74): the paths are
processed in order, threading the file system; `Ok(true)` increments
`formatted`, `Ok(false)` increments `skipped`, and an `Err` is caught,
its description printed, and counted as `skipped` — the loop then continues
with the next file. `ctx i` supplies the environment of the i-th iteration. -/
def runBatch (ctx : Nat → FileCtx) (i : Nat) (paths : List String) (fs : FS) : BatchOut :=
  match paths with
  | [] => ⟨0, 0, fs, 0, [], []⟩
  | p :: ps =>
    let r := format_pyfile (ctx i) fs p
    let rest := runBatch ctx (i + 1) ps r.fs
    match r.result with
    | .ok true =>
      ⟨rest.formatted + 1, rest.skipped, rest.fs, r.requests + rest.requests,
        r.result :: rest.outcomes, rest.printedErrors⟩
    | .ok false =>
      ⟨rest.formatted, rest.skipped + 1, rest.fs, r.requests + rest.requests,
        r.result :: rest.outcomes, rest.printedErrors⟩
    | .err e =>
      ⟨rest.formatted, rest.skipped + 1, rest.fs, r.requests + rest.requests,
        r.result :: rest.outcomes, e.what_happened :: rest.printedErrors⟩

/-- The message `main` would print for one per-file result: the error
description for `Err`, nothing otherwise. -/
def errMsg : RResult Bool → Option String
  | .err e => some e.what_happened
  | .ok _ => none

/-- Observable outcome of one run of `main`: the returned
`Result<(), String>`, how many HTTP requests were issued, whether the
"no target source files" notice was printed, and the final tallies. -/
structure MainOut where
  exitResult : Except String Unit
  requests : Nat
  noticePrinted : Bool
  formatted : Nat
  skipped : Nat

/-- `fn main() -> Result<(), String>` (`src/main.rs` lines 22–95): with no
source paths, print the notice and return `Ok(())` immediately; otherwise
build the headers (each `HeaderValue` unwrap modelled through `Option`, a
`none` marking the panic it would raise — which never happens, see
`headers_from_cli_options_isSome`), run the per-file loop, print the summary
and return `Ok(())`. Every return path of the source returns `Ok(())`. -/
def mainModel (opts : CliOptions) (ctx : Nat → FileCtx) (fs : FS) : Option MainOut :=
  if opts.src.isEmpty then
    some ⟨.ok (), 0, true, 0, 0⟩
  else
    match headers_from_cli_options opts with
    | none => none
    | some _headers =>
      let b := runBatch ctx 0 opts.src fs
      some ⟨.ok (), b.requests, false, b.formatted, b.skipped⟩

/-- C7 (confirmed): the orchestrator records exactly one outcome per path,
in order; every outcome is tallied (formatted + skipped = number of paths),
so a failure on one path never halts processing of the rest; and the
printed error descriptions are exactly the per-file error messages, in
order. -/
theorem runBatch_isolation (ctx : Nat → FileCtx) (i : Nat) (paths : List String)
    (fs : FS) :
    (runBatch ctx i paths fs).outcomes.length = paths.length ∧
    (runBatch ctx i paths fs).formatted + (runBatch ctx i paths fs).skipped =
      paths.length ∧
    (runBatch ctx i paths fs).printedErrors =
      (runBatch ctx i paths fs).outcomes.filterMap errMsg := by
  induction paths generalizing i fs with
  | nil => exact ⟨rfl, rfl, rfl⟩
  | cons p ps ih =>
    obtain ⟨ih1, ih2, ih3⟩ := ih (i + 1) (format_pyfile (ctx i) fs p).fs
    rcases hr : (format_pyfile (ctx i) fs p).result with v | e
    · cases v <;>
        (refine ⟨?_, ?_, ?_⟩ <;>
          simp [runBatch, hr, ih1, ih2, ih3, errMsg] <;> omega)
    · refine ⟨?_, ?_, ?_⟩ <;>
        simp [runBatch, hr, ih1, ih2, ih3, errMsg] <;> omega

/-- C8 (confirmed): `main` always returns `Ok(())` (exit status 0) whatever
the per-file outcomes, and with zero source paths it prints the notice and
returns immediately without issuing any request. -/
theorem main_exit_zero_and_notice (opts : CliOptions) (ctx : Nat → FileCtx) (fs : FS)
    (s : String) (htv : opts.target_version = parse_py_versions s) :
    ∃ out, mainModel opts ctx fs = some out ∧ out.exitResult = .ok () ∧
      (opts.src = [] → out.requests = 0 ∧ out.noticePrinted = true) := by
  by_cases hsrc : opts.src.isEmpty = true
  · refine ⟨⟨.ok (), 0, true, 0, 0⟩, by simp [mainModel, hsrc], rfl, fun _ => ⟨rfl, rfl⟩⟩
  · have hsome := headers_from_cli_options_isSome opts s htv
    rcases hh : headers_from_cli_options opts with _ | h
    · rw [hh] at hsome; simp at hsome
    · refine ⟨⟨.ok (), (runBatch ctx 0 opts.src fs).requests, false,
        (runBatch ctx 0 opts.src fs).formatted, (runBatch ctx 0 opts.src fs).skipped⟩,
        by simp [mainModel, hsrc, hh], rfl, ?_⟩
      intro hnil
      exfalso
      rw [hnil] at hsrc
      exact hsrc rfl

/-- Witness for `main_exit_zero_and_notice`: an invocation with zero source
paths and the default (empty) target-version string. -/
theorem main_exit_zero_and_notice_witness :
    ∃ out, mainModel ⟨"localhost", 45484, 88, "", false, false, false, false, false, []⟩
        (fun _ => ⟨none, true, none, ⟨"/tmp", "t0", true, true, true⟩⟩) [] = some out ∧
      out.exitResult = .ok () ∧
      (([] : List String) = [] → out.requests = 0 ∧ out.noticePrinted = true) :=
  main_exit_zero_and_notice
    ⟨"localhost", 45484, 88, "", false, false, false, false, false, []⟩
    (fun _ => ⟨none, true, none, ⟨"/tmp", "t0", true, true, true⟩⟩) [] "" (by decide)
